import Mathlib

/-!
Verification development for the hugot batch inference pipeline engine
(package `pipelines`: the BasePipeline source file and
`pipelines/tokenClassification.go`).

Go code is shallowly embedded in Lean:
* Go `error` values are modelled by `ErrV := List String`, where `[]` plays
  the role of `nil` and `errors.Join` is concatenation (Go's `errors.Join`
  drops `nil` components and returns `nil` when nothing remains).
* External collaborators (the tokenizer's encode/decode, the softmax from the
  `utils` package) are passed in as function parameters.
* Functions from the `utils` package whose source is not part of the two
  pipeline files (`util.ArgMax`, `util.Mean`) are modelled from the spec and
  marked as such in their doc comments.
* Go strings are modelled as Lean `String`; `len` and `s[a:b]` are modelled
  at character granularity, which coincides with Go's byte-level semantics on
  ASCII text (all concrete inputs in this development are ASCII).
* Go runtime panics (out-of-range indexing, `make` with a negative length)
  are modelled by explicit `panicked`/`error` results where the relevant
  claims depend on them.
-/

namespace Hugot

/-- Go `error` values: the empty list is `nil`; a one-element list is a plain
error; `errors.Join` concatenates the lists of messages. -/
abbrev ErrV := List String

/-- Go `errors.Join` on two error values (drops `nil`, i.e. `[]`, parts). -/
def goJoin (a b : ErrV) : ErrV := a ++ b

/-! ### `BasePipeline.Destroy` (BasePipeline source file, lines 245-256)

`Destroy` closes the tokenizer and then destroys the ORT session.  The
environment records what each native close call would return. -/

structure DestroyEnv where
  tokenizerCloseErr : ErrV
  sessionDestroyErr : ErrV
deriving DecidableEq, Repr

structure DestroyResult where
  tokenizerCloseCalled : Bool
  sessionDestroyCalled : Bool
  returned : ErrV
deriving DecidableEq, Repr

/-- Embedding of `BasePipeline.Destroy`.  Both closes are executed
unconditionally; each failing close overwrites `finalErr` by plain
assignment (the source does not use `errors.Join` here). -/
def Destroy (env : DestroyEnv) : DestroyResult :=
  let finalErr : ErrV := []
  let errTokenizer := env.tokenizerCloseErr
  let finalErr := if errTokenizer ≠ [] then errTokenizer else finalErr
  let ortError := env.sessionDestroyErr
  let finalErr := if ortError ≠ [] then ortError else finalErr
  { tokenizerCloseCalled := true, sessionDestroyCalled := true,
    returned := finalErr }

/-! ### `BasePipeline.Forward` (BasePipeline source file, lines 299-356)

The environment fixes the outcome of every native call made during one
`Forward` invocation.  The embedding tracks, per exit path of the Go code:
which tensors were allocated, which `Destroy` calls ran (via the two
`defer`s), the error value actually returned, and the error value that the
deferred closures accumulated into the *local* variable `err`.  Since
`Forward`'s results are unnamed in Go, assignments to `err` performed by the
deferred closures after the `return` statement cannot change the returned
error: that accumulated value is recorded in `discardedErr`.

Defer registration order in the source:
* the input-tensor destroy defer is registered only after both
  `getInputTensors` and `NewEmptyTensor` have succeeded;
* the output-tensor destroy defer is registered only after `Run` has
  succeeded. -/

structure InputMetaSpec where
  name : String
  newTensorErr : ErrV
deriving DecidableEq, Repr

structure ForwardEnv where
  inputsMeta : List InputMetaSpec
  newEmptyTensorErr : ErrV
  runErr : ErrV
  destroyInputErrs : List ErrV
  destroyOutputErr : ErrV
deriving DecidableEq, Repr

/-- Embedding of `BasePipeline.getInputTensors`: for each model input with a
recognized name, one `ort.NewTensor` call is made; the `Bool` records whether
that tensor was allocated (creation succeeded).  The loop assigns the shared
`err` variable only in the three recognized `switch` cases, so a later
successful creation overwrites an earlier failure. -/
def getInputTensors (meta : List InputMetaSpec) : List Bool × ErrV :=
  meta.foldl
    (fun (acc : List Bool × ErrV) m =>
      if m.name = "input_ids" ∨ m.name = "token_type_ids" ∨ m.name = "attention_mask" then
        (acc.1 ++ [m.newTensorErr.isEmpty], m.newTensorErr)
      else
        (acc.1 ++ [false], acc.2))
    ([], [])

structure ForwardResult where
  inputsAllocated : List Bool
  outputAllocated : Bool
  inputsDestroyed : Bool
  outputDestroyed : Bool
  returnedErr : ErrV
  discardedErr : ErrV
deriving DecidableEq, Repr

/-- Embedding of `BasePipeline.Forward`'s resource/error behaviour, exit path
by exit path.  The deferred closures run last-registered-first, so in the
local `err` the output-tensor destroy error precedes the input-tensor destroy
errors; that local value is never the returned error (unnamed results) and is
recorded as `discardedErr`. -/
def Forward (env : ForwardEnv) : ForwardResult :=
  let allocatedErr := getInputTensors env.inputsMeta
  let allocated := allocatedErr.1
  let err := allocatedErr.2
  if err ≠ [] then
    { inputsAllocated := allocated, outputAllocated := false,
      inputsDestroyed := false, outputDestroyed := false,
      returnedErr := err, discardedErr := [] }
  else if env.newEmptyTensorErr ≠ [] then
    { inputsAllocated := allocated, outputAllocated := false,
      inputsDestroyed := false, outputDestroyed := false,
      returnedErr := env.newEmptyTensorErr, discardedErr := [] }
  else if env.runErr ≠ [] then
    { inputsAllocated := allocated, outputAllocated := true,
      inputsDestroyed := true, outputDestroyed := false,
      returnedErr := env.runErr,
      discardedErr := env.destroyInputErrs.foldl goJoin [] }
  else
    { inputsAllocated := allocated, outputAllocated := true,
      inputsDestroyed := true, outputDestroyed := true,
      returnedErr := [],
      discardedErr := goJoin env.destroyOutputErr (env.destroyInputErrs.foldl goJoin []) }

/-- Success path, but destroying the input tensor fails. -/
def fwdEnvDestroyFails : ForwardEnv :=
  { inputsMeta := [{ name := "input_ids", newTensorErr := [] }],
    newEmptyTensorErr := [], runErr := [],
    destroyInputErrs := [["failed to destroy input tensor"]],
    destroyOutputErr := [] }

/-- The session `Run` call fails after both allocations succeeded. -/
def fwdEnvRunFails : ForwardEnv :=
  { inputsMeta := [{ name := "input_ids", newTensorErr := [] }],
    newEmptyTensorErr := [], runErr := ["onnx session run failed"],
    destroyInputErrs := [[]], destroyOutputErr := [] }

/-- The output-tensor allocation fails after the input tensor was created. -/
def fwdEnvAllocFails : ForwardEnv :=
  { inputsMeta := [{ name := "input_ids", newTensorErr := [] }],
    newEmptyTensorErr := ["failed to allocate output tensor"], runErr := [],
    destroyInputErrs := [[]], destroyOutputErr := [] }

/-! ### Data model (BasePipeline source file, lines 123-146, and
`pipelines/tokenClassification.go`, lines 21-46)

Scores are Go `float32`; they are modelled as rationals (`Rat`), which keeps
every definition executable and every comparison exact.  Token ids (Go
`uint32`) are modelled as `Nat`. -/

structure TokenizedInput where
  Raw : String
  Tokens : List String
  TokenIds : List Nat
  TypeIds : List Nat
  AttentionMask : List Nat
  SpecialTokensMask : List Nat
  MaxAttentionIndex : Nat
  Offsets : List (Nat × Nat)
deriving DecidableEq, Inhabited, Repr

structure PipelineBatch where
  Input : List TokenizedInput
  IdsTensor : List Int
  TypeIdsTensor : List Int
  AttentionMasksTensor : List Int
  MaxSequence : Nat
  OutputTensor : List Rat
deriving DecidableEq, Inhabited, Repr

structure Entity where
  Entity : String
  Score : Rat
  Scores : List Rat
  Index : Nat
  Word : String
  TokenId : Nat
  Start : Nat
  End : Nat
  IsSubword : Bool
deriving DecidableEq, Inhabited, Repr

/-- The fields of `TokenClassificationPipeline` that the postprocessing code
reads (`pipelines/tokenClassification.go`, lines 21-26; `OutputDim` lives in
the embedded `BasePipeline`).  The Go `map[int]string` is modelled as an
association list with unique keys, looked up with `List.lookup`. -/
structure TokenClassificationPipeline where
  IdLabelMap : List (Nat × String)
  AggregationStrategy : String
  IgnoreLabels : List String
  OutputDim : Int
deriving DecidableEq, Inhabited, Repr

/-! ### Functions from the `utils` package

The `utils` package of this repository is not among the provided source
files; only its call sites are.  The two arithmetic helpers the claims need
are modelled from the spec. -/

/-- Modelled from the spec: `util.Mean` (source file `utils` package, not
under the provided sources).  Spec §4.4: "score is the arithmetic mean of
member scores". -/
def Mean (xs : List Rat) : Rat := xs.sum / xs.length

/-- Modelled from the spec: `util.ArgMax` (source file `utils` package, not
under the provided sources).  Inner loop: Go-style scan keeping the first
occurrence of the maximum. -/
def argMaxGo (bestIdx : Nat) (best : Rat) (j : Nat) : List Rat → Nat × Rat
  | [] => (bestIdx, best)
  | v :: rest =>
    if v > best then argMaxGo j v (j + 1) rest
    else argMaxGo bestIdx best (j + 1) rest

/-- Modelled from the spec: `util.ArgMax` returns the index of the maximal
score together with that score, "ties broken by first occurrence in index
order" (spec §4.4), and a hard error on an empty vector (the call site
propagates a non-nil error). -/
def ArgMax (xs : List Rat) : Except String (Nat × Rat) :=
  match xs with
  | [] => .error "attempted to calculate argmax of empty slice"
  | x :: rest => .ok (argMaxGo 0 x 1 rest)

/-! ### Preprocessing (BasePipeline source file, lines 258-297 and 358-394) -/

/-- Result of the Tokenizer Adapter's `EncodeWithOptions` (external
collaborator); passed to `Preprocess` as a function parameter. -/
structure EncodeOutput where
  Tokens : List String
  IDs : List Nat
  TypeIDs : List Nat
  AttentionMask : List Nat
  SpecialTokensMask : List Nat
  Offsets : List (Nat × Nat)
deriving DecidableEq, Inhabited, Repr

/-- Loop body of the `maxAttentionIndex` computation in `Preprocess`:
`for j, v := range mask { if v != 0 { maxAttentionIndex = j } }`. -/
def maxAttentionGo (j acc : Nat) : List Nat → Nat
  | [] => acc
  | v :: rest => maxAttentionGo (j + 1) (if v ≠ 0 then j else acc) rest

/-- The `maxAttentionIndex` of one attention mask (starts at `0`). -/
def maxAttentionIndexOf (mask : List Nat) : Nat := maxAttentionGo 0 0 mask

/-- One row of the `idsTensor` written by `convertInputToTensors`: position
`j` holds `int64(input.TokenIds[j])` when `j+1 <= len(input.TokenIds)` and
`0` (padding) otherwise. -/
def idsRow (input : TokenizedInput) (maxSequence : Nat) : List Int :=
  (List.range maxSequence).map fun j =>
    if j + 1 ≤ input.TokenIds.length then (input.TokenIds.getD j 0 : Int) else 0

/-- One row of the `typeIdsTensor`: the value is copied only when the model
declares a `token_type_ids` input; otherwise the preallocated `0` remains. -/
def typeIdsRow (hasTokenTypeIds : Bool) (input : TokenizedInput) (maxSequence : Nat) : List Int :=
  (List.range maxSequence).map fun j =>
    if j + 1 ≤ input.TokenIds.length then
      (if hasTokenTypeIds then (input.TypeIds.getD j 0 : Int) else 0)
    else 0

/-- One row of the `attentionMasksTensor`, guarded by `hasAttentionMask`. -/
def attentionMaskRow (hasAttentionMask : Bool) (input : TokenizedInput) (maxSequence : Nat) : List Int :=
  (List.range maxSequence).map fun j =>
    if j + 1 ≤ input.TokenIds.length then
      (if hasAttentionMask then (input.AttentionMask.getD j 0 : Int) else 0)
    else 0

/-- Embedding of `BasePipeline.convertInputToTensors`.  The source writes the
three preallocated flat arrays through a single running `counter` that is
incremented once per `(input, j)` pair in row-major order, which is exactly
the concatenation of the per-input rows. -/
def convertInputToTensors (hasTokenTypeIds hasAttentionMask : Bool)
    (inputs : List TokenizedInput) (maxSequence : Nat) : PipelineBatch :=
  { Input := inputs,
    IdsTensor := inputs.flatMap fun i => idsRow i maxSequence,
    TypeIdsTensor := inputs.flatMap fun i => typeIdsRow hasTokenTypeIds i maxSequence,
    AttentionMasksTensor := inputs.flatMap fun i => attentionMaskRow hasAttentionMask i maxSequence,
    MaxSequence := maxSequence,
    OutputTensor := [] }

/-- Embedding of `BasePipeline.Preprocess`.  The tokenizer is the `tok`
parameter; the atomic timing-counter updates have no bearing on the batch
value and are omitted.  The single Go loop both tokenizes and folds the
running `maxSequence`; the embedding separates the two passes, which compute
the same values. -/
def Preprocess (hasTokenTypeIds hasAttentionMask : Bool)
    (tok : String → EncodeOutput) (inputs : List String) : PipelineBatch :=
  let outputs := inputs.map fun input =>
    let o := tok input
    { Raw := input, Tokens := o.Tokens, TokenIds := o.IDs, TypeIds := o.TypeIDs,
      AttentionMask := o.AttentionMask, SpecialTokensMask := o.SpecialTokensMask,
      MaxAttentionIndex := maxAttentionIndexOf o.AttentionMask,
      Offsets := o.Offsets }
  let maxSequence := outputs.foldl
    (fun m o => if o.MaxAttentionIndex > m then o.MaxAttentionIndex else m) 0
  convertInputToTensors hasTokenTypeIds hasAttentionMask outputs (maxSequence + 1)

/-! ### Construction defaults and `Validate`
(`pipelines/tokenClassification.go`, lines 113-120 and 138-151) -/

/-- The defaults block of `NewTokenClassificationPipeline`: an empty
aggregation strategy becomes `"SIMPLE"`, an empty ignore-label list becomes
`["O"]`.  A non-empty strategy is left untouched. -/
def applyDefaults (p : TokenClassificationPipeline) : TokenClassificationPipeline :=
  { p with
    AggregationStrategy :=
      if p.AggregationStrategy = "" then "SIMPLE" else p.AggregationStrategy,
    IgnoreLabels :=
      if p.IgnoreLabels.length = 0 then ["O"] else p.IgnoreLabels }

/-- Embedding of `TokenClassificationPipeline.Validate`: the three checks,
joined with `errors.Join`. -/
def Validate (p : TokenClassificationPipeline) : ErrV :=
  (if p.OutputDim ≤ 0 then
    ["p configuration invalid: outputDim parameter must be greater than zero"] else [])
  ++ (if p.IdLabelMap.length ≤ 0 then
    ["p configuration invalid: length of id2label map for token classification p must be greater than zero"] else [])
  ++ (if (p.IdLabelMap.length : Int) ≠ p.OutputDim then
    ["p configuration invalid: length of id2label map does not match model output dimension"] else [])

/-! ### Token classification postprocessing
(`pipelines/tokenClassification.go`, lines 153-356)

The Tokenizer Adapter's `Decode` is passed as the parameter
`decode : List Nat → Bool → String`; `util.SoftMax` (source not among the
provided files, and only its pointwise application matters to the claims) is
passed as the parameter `softMax : List Rat → List Rat`. -/

/-- Go string slicing `s[a:b]` at character granularity (exact for ASCII;
in-range at every call site exercised here, where Go would otherwise
panic). -/
def goSubstring (s : String) (a b : Nat) : String :=
  String.mk ((s.data.drop a).take (b - a))

/-- Go `strings.HasPrefix`, at character granularity (exact for the ASCII
prefixes `B-`/`I-` used by the pipeline). -/
def goStartsWith (s pre : String) : Bool := pre.data.isPrefixOf s.data

/-- Go `s[n:]` at character granularity (exact when the first `n` bytes are
ASCII, as they are at every call site: they matched `B-`/`I-`). -/
def goDrop (s : String) (n : Nat) : String := String.mk (s.data.drop n)

/-- Splitting loop for `strings.Split(s, "-")`. -/
def splitDashAux (cur : List Char) : List Char → List (List Char)
  | [] => [cur.reverse]
  | c :: rest =>
    if c = '-' then cur.reverse :: splitDashAux [] rest
    else splitDashAux (c :: cur) rest

/-- Go `strings.Split(s, "-")`. -/
def goSplitDash (s : String) : List String :=
  (splitDashAux [] s.data).map String.mk

/-- Go `strings.Join(elems, "-")`. -/
def goJoinDash : List String → String
  | [] => ""
  | [s] => s
  | s :: rest => s ++ "-" ++ goJoinDash rest

/-- Loop body of `GatherPreEntities` over `for j, tokenScores := range
output`: special tokens are skipped; out-of-range reads of the per-token
lists (a Go panic) are modelled with defaults, and every concrete input used
below is well-formed. -/
def gatherLoop (input : TokenizedInput) (j : Nat) : List (List Rat) → List Entity
  | [] => []
  | tokenScores :: rest =>
    if input.SpecialTokensMask.getD j 0 > 0 then
      gatherLoop input (j + 1) rest
    else
      let word := input.Tokens.getD j ""
      let tokenId := input.TokenIds.getD j 0
      let startInd := (input.Offsets.getD j (0, 0)).1
      let endInd := (input.Offsets.getD j (0, 0)).2
      let wordRef := goSubstring input.Raw startInd endInd
      let isSubword := word.length ≠ wordRef.length
      { Entity := "", Score := 0, Scores := tokenScores, Index := j,
        Word := word, TokenId := tokenId, Start := startInd, End := endInd,
        IsSubword := isSubword } :: gatherLoop input (j + 1) rest

/-- Embedding of `TokenClassificationPipeline.GatherPreEntities`. -/
def GatherPreEntities (input : TokenizedInput) (output : List (List Rat)) : List Entity :=
  gatherLoop input 0 output

/-- Embedding of `TokenClassificationPipeline.getTag`: split a label into a
`B`/`I` marker and the tag, defaulting to `I` with the whole label when the
label is not in `B-`/`I-` format. -/
def getTag (entityName : String) : String × String :=
  if goStartsWith entityName "B-" then ("B", goDrop entityName 2)
  else if goStartsWith entityName "I-" then ("I", goDrop entityName 2)
  else ("I", entityName)

/-- Embedding of `TokenClassificationPipeline.groupSubEntities`.  Every call
site passes a non-empty group, so the `entities[0]` and
`entities[len(entities)-1]` reads are modelled with `headD`/`getLastD`.  The
unset fields of the Go struct literal hold their zero values. -/
def groupSubEntities (decode : List Nat → Bool → String) (entities : List Entity) : Entity :=
  let splits := goSplitDash (entities.headD default).Entity
  let entityType := if splits.length = 1 then splits.headD "" else goJoinDash splits.tail
  let scores := entities.map fun s => s.Score
  let tokens := entities.map fun s => s.TokenId
  let score := Mean scores
  let word := decode tokens false
  { Entity := entityType, Score := score, Scores := [], Index := 0,
    Word := word, TokenId := 0, Start := (entities.headD default).Start,
    End := (entities.getLastD default).End, IsSubword := false }

/-- Loop body of `GroupEntities`: the state is the pair
`(entityGroups, currentGroupDisagg)`. -/
def groupStep (decode : List Nat → Bool → String)
    (st : List Entity × List Entity) (e : Entity) : List Entity × List Entity :=
  let entityGroups := st.1
  let currentGroupDisagg := st.2
  if currentGroupDisagg = [] then
    (entityGroups, currentGroupDisagg ++ [e])
  else
    let bi := (getTag e.Entity).1
    let tag := (getTag e.Entity).2
    let lastTag := (getTag (currentGroupDisagg.getLastD default).Entity).2
    if tag = lastTag ∧ bi ≠ "B" then
      (entityGroups, currentGroupDisagg ++ [e])
    else
      (entityGroups ++ [groupSubEntities decode currentGroupDisagg], [e])

/-- Embedding of `TokenClassificationPipeline.GroupEntities`.  The Go
function's error result is always `nil`, so the embedding returns the group
list directly. -/
def GroupEntities (decode : List Nat → Bool → String) (entities : List Entity) : List Entity :=
  let st := entities.foldl (groupStep decode) ([], [])
  if st.2 ≠ [] then st.1 ++ [groupSubEntities decode st.2] else st.1

/-- Entity-construction loop of `Aggregate`: the Go code fills a preallocated
slice in index order and returns on the first `ArgMax` or label-lookup
failure, which is this recursion. -/
def aggregateLoop (p : TokenClassificationPipeline) (input : TokenizedInput) :
    List Entity → Except String (List Entity)
  | [] => .ok []
  | preEntity :: rest =>
    match ArgMax preEntity.Scores with
    | .error e => .error e
    | .ok (entityIdx, score) =>
      match List.lookup entityIdx p.IdLabelMap with
      | none => .error ("could not determine entity type for input " ++ input.Raw
          ++ ", predicted entity index " ++ toString entityIdx)
      | some label =>
        match aggregateLoop p input rest with
        | .error e => .error e
        | .ok entities =>
          .ok ({ Entity := label, Score := score, Scores := [],
                 Index := preEntity.Index, Word := preEntity.Word,
                 TokenId := preEntity.TokenId, Start := preEntity.Start,
                 End := preEntity.End, IsSubword := false } :: entities)

/-- Embedding of `TokenClassificationPipeline.Aggregate`: strategies other
than `SIMPLE` and `NONE` are rejected here (at postprocessing time); `NONE`
returns the per-token entities, `SIMPLE` groups them. -/
def Aggregate (decode : List Nat → Bool → String) (p : TokenClassificationPipeline)
    (input : TokenizedInput) (preEntities : List Entity) : Except String (List Entity) :=
  if p.AggregationStrategy = "SIMPLE" ∨ p.AggregationStrategy = "NONE" then
    match aggregateLoop p input preEntities with
    | .error e => .error e
    | .ok entities =>
      if p.AggregationStrategy = "NONE" then .ok entities
      else .ok (GroupEntities decode entities)
  else
    .error "aggregation strategies other than SIMPLE and NONE are not implemented"

/-! ### `Postprocess` (`pipelines/tokenClassification.go`, lines 153-216) -/

/-- Result of a Go function that can return a value, return an error, or
panic. -/
inductive PPResult where
  | ok (entities : List (List Entity))
  | err (msg : String)
  | panicked (msg : String)
deriving DecidableEq, Repr

/-- Local state of the de-flattening loop of `Postprocess`. -/
structure DeState where
  outputs : List (List (List Rat))
  inputVectors : List (List Rat)
  tokenVector : List Rat
  tokenVectorCounter : Nat
  tokenCounter : Nat
  inputCounter : Nat
  inputTokens : List Nat
deriving DecidableEq, Inhabited, Repr

/-- The de-flattening loop of `Postprocess` over `range batch.OutputTensor`.
Out-of-range slice writes (`tokenVector[tokenVectorCounter]` and
`outputs[inputCounter]`), which panic in Go, are modelled by `.error`.
`tokenCounter == batch.MaxSequence-1` is Go `int` arithmetic, hence the
comparison over `Int`. -/
def deflattenLoop (softMax : List Rat → List Rat) (outputDim maxSequence : Nat)
    (inputs : List TokenizedInput) : DeState → List Rat → Except String DeState
  | st, [] => .ok st
  | st, result :: rest =>
    if st.tokenVectorCounter < outputDim then
      let tokenVector := st.tokenVector.set st.tokenVectorCounter result
      if st.tokenVectorCounter = outputDim - 1 then
        let inputVectors :=
          if st.tokenCounter < st.inputTokens.length then
            st.inputVectors ++ [softMax tokenVector]
          else st.inputVectors
        if (st.tokenCounter : Int) = (maxSequence : Int) - 1 then
          if st.inputCounter < st.outputs.length then
            let outputs := st.outputs.set st.inputCounter inputVectors
            let inputCounter := st.inputCounter + 1
            let inputTokens :=
              if inputCounter < inputs.length then (inputs.getD inputCounter default).TokenIds
              else st.inputTokens
            deflattenLoop softMax outputDim maxSequence inputs
              { outputs := outputs, inputVectors := [],
                tokenVector := List.replicate outputDim 0,
                tokenVectorCounter := 0, tokenCounter := 0,
                inputCounter := inputCounter, inputTokens := inputTokens } rest
          else .error "runtime error: index out of range"
        else
          deflattenLoop softMax outputDim maxSequence inputs
            { st with
              inputVectors := inputVectors,
              tokenVector := List.replicate outputDim 0,
              tokenVectorCounter := 0, tokenCounter := st.tokenCounter + 1 } rest
      else
        deflattenLoop softMax outputDim maxSequence inputs
          { st with
            tokenVector := tokenVector,
            tokenVectorCounter := st.tokenVectorCounter + 1 } rest
    else .error "runtime error: index out of range"

/-- Per-input stage of `Postprocess`: gather pre-entities, aggregate (with
error propagation), and filter out empty and ignored labels. -/
def postLoop (decode : List Nat → Bool → String) (p : TokenClassificationPipeline) :
    List (TokenizedInput × List (List Rat)) → Except String (List (List Entity))
  | [] => .ok []
  | (input, output) :: rest =>
    let preEntities := GatherPreEntities input output
    match Aggregate decode p input preEntities with
    | .error e => .error e
    | .ok entities =>
      let filteredEntities := entities.filter fun e =>
        !(p.IgnoreLabels.contains e.Entity) && e.Entity != ""
      match postLoop decode p rest with
      | .error e => .error e
      | .ok restLists => .ok (filteredEntities :: restLists)

/-- Embedding of `TokenClassificationPipeline.Postprocess`.  In source order:
`make([]float32, p.OutputDim)` panics for a negative `OutputDim`; the
unconditional `batch.Input[0].TokenIds` read panics on an empty batch; then
the de-flattening loop runs, and finally the per-input
gather/aggregate/filter loop (whose first failure aborts with an error). -/
def Postprocess (softMax : List Rat → List Rat) (decode : List Nat → Bool → String)
    (p : TokenClassificationPipeline) (batch : PipelineBatch) : PPResult :=
  if p.OutputDim < 0 then .panicked "runtime error: makeslice: len out of range"
  else
    match batch.Input with
    | [] => .panicked "runtime error: index out of range [0] with length 0"
    | first :: _ =>
      let st0 : DeState :=
        { outputs := List.replicate batch.Input.length [],
          inputVectors := [],
          tokenVector := List.replicate p.OutputDim.toNat 0,
          tokenVectorCounter := 0, tokenCounter := 0, inputCounter := 0,
          inputTokens := first.TokenIds }
      match deflattenLoop softMax p.OutputDim.toNat batch.MaxSequence batch.Input st0
          batch.OutputTensor with
      | .error m => .panicked m
      | .ok st =>
        match postLoop decode p (batch.Input.zip st.outputs) with
        | .error m => .err m
        | .ok lists => .ok lists

/-! ### Definitions taken from the specification's wording

These follow the spec text (not the source) and are compared against the
source-derived definitions in the theorems below. -/

/-- Spec §4.4: the bare tag of a label is the label with a recognized
`B-`/`I-` marker stripped; a label with no recognized marker is its own bare
text. -/
def bareTag (label : String) : String :=
  if goStartsWith label "B-" then goDrop label 2
  else if goStartsWith label "I-" then goDrop label 2
  else label

/-- Spec §4.4: whether a label carries the `B` marker. -/
def isBLabel (label : String) : Bool := goStartsWith label "B-"

/-- Label computation performed on group closure: the text after the first
dash, re-joining the remaining dash-separated pieces; the label itself when
it contains no dash. -/
def dashTail (label : String) : String :=
  let splits := goSplitDash label
  if splits.length = 1 then splits.headD "" else goJoinDash splits.tail

/-- Spec §8: `j` is the index of the last non-zero entry of the attention
mask. -/
def isLastNonzeroIndex (mask : List Nat) (j : Nat) : Prop :=
  j < mask.length ∧ mask.getD j 0 ≠ 0 ∧
    ∀ k, k < mask.length → j < k → mask.getD k 0 = 0

/-- Maximum of a list of naturals (zero on the empty list). -/
def listMax (l : List Nat) : Nat := l.foldr max 0

/-- A trivial stand-in for the Tokenizer Adapter's `Decode` in concrete
computations whose result does not depend on decoded words. -/
def decodeZero : List Nat → Bool → String := fun _ _ => ""

/-- A trivial stand-in for `util.SoftMax` in concrete computations whose
result does not depend on the softmax values. -/
def softMaxId : List Rat → List Rat := fun v => v

/-! ### C1 and C2: resource release in `Forward` and `Destroy` -/

/-- C1: the claim states that every transient input/output tensor allocated
by a `Forward` call is released on every exit path and that release errors
are aggregated into the returned error.  The code violates both parts, and
this theorem evaluates `Forward` at the failing environments: on the success
path a failing input-tensor destroy leaves the returned error `nil` (the
deferred `errors.Join` writes a local variable, not a named result), so the
release error is discarded; when the session `Run` fails the output tensor
was allocated but its destroy defer was never registered; when the
output-tensor allocation fails the already-allocated input tensor is never
destroyed. -/
theorem c1_forward_release :
    (Forward fwdEnvDestroyFails).inputsDestroyed = true ∧
    (Forward fwdEnvDestroyFails).outputDestroyed = true ∧
    (Forward fwdEnvDestroyFails).returnedErr = [] ∧
    (Forward fwdEnvDestroyFails).discardedErr = ["failed to destroy input tensor"] ∧
    (Forward fwdEnvRunFails).outputAllocated = true ∧
    (Forward fwdEnvRunFails).outputDestroyed = false ∧
    (Forward fwdEnvRunFails).returnedErr = ["onnx session run failed"] ∧
    (Forward fwdEnvAllocFails).inputsAllocated = [true] ∧
    (Forward fwdEnvAllocFails).inputsDestroyed = false := by
  decide

/-- Both native closes fail. -/
def destroyEnvBothFail : DestroyEnv :=
  { tokenizerCloseErr := ["tokenizer close failed"],
    sessionDestroyErr := ["session destroy failed"] }

/-- C2 counterexample: when both the tokenizer close and the session destroy
fail, `Destroy` returns only the session error; the returned error does not
mention the tokenizer failure, refuting "the returned error is a combined
error mentioning both failures". -/
theorem c2_destroy_counterexample :
    (Destroy destroyEnvBothFail).returned = ["session destroy failed"] ∧
    "tokenizer close failed" ∉ (Destroy destroyEnvBothFail).returned := by
  decide

/-- C2 amended: both close operations are always attempted, but the failures
are not combined: the session close error overwrites the tokenizer close
error, so `Destroy` returns the session error when the session close fails
and otherwise the tokenizer error. -/
theorem c2_destroy_amended (env : DestroyEnv) :
    (Destroy env).tokenizerCloseCalled = true ∧
    (Destroy env).sessionDestroyCalled = true ∧
    (Destroy env).returned =
      (if env.sessionDestroyErr ≠ [] then env.sessionDestroyErr
       else env.tokenizerCloseErr) := by
  refine ⟨rfl, rfl, ?_⟩
  unfold Destroy
  by_cases hs : env.sessionDestroyErr = []
  · by_cases ht : env.tokenizerCloseErr = [] <;> simp [hs, ht]
  · simp [hs]

/-! ### C3: unsupported aggregation strategies -/

/-- An otherwise well-formed pipeline configuration requesting the
unsupported aggregation strategy `"MAX"`. -/
def p3 : TokenClassificationPipeline :=
  { IdLabelMap := [(0, "O")], AggregationStrategy := "MAX",
    IgnoreLabels := [], OutputDim := 1 }

/-- C3 counterexample: with a well-formed label map, a pipeline requesting
the unsupported strategy `"MAX"` passes the construction-time checks (the
defaults block leaves the strategy untouched and `Validate` reports no
error), so construction does not fail; the strategy is first rejected when
`Aggregate` runs at postprocessing time. -/
theorem c3_construction_counterexample :
    (applyDefaults p3).AggregationStrategy = "MAX" ∧
    Validate (applyDefaults p3) = [] ∧
    Aggregate decodeZero (applyDefaults p3) default [] =
      .error "aggregation strategies other than SIMPLE and NONE are not implemented" := by
  refine ⟨by decide, by decide, rfl⟩

/-- C3 amended: an unsupported (non-empty, non-`SIMPLE`, non-`NONE`)
aggregation strategy is never silently defaulted, but it is not rejected at
pipeline construction either: `Validate`'s verdict does not depend on the
strategy field, and the strategy is first rejected at postprocessing time,
when `Aggregate` returns a configuration error. -/
theorem c3_amended (decode : List Nat → Bool → String)
    (p : TokenClassificationPipeline) (input : TokenizedInput)
    (preEntities : List Entity)
    (h1 : p.AggregationStrategy ≠ "SIMPLE") (h2 : p.AggregationStrategy ≠ "NONE")
    (h3 : p.AggregationStrategy ≠ "") :
    Aggregate decode p input preEntities =
      .error "aggregation strategies other than SIMPLE and NONE are not implemented" ∧
    Validate { p with AggregationStrategy := "SIMPLE" } = Validate p ∧
    (applyDefaults p).AggregationStrategy = p.AggregationStrategy := by
  refine ⟨?_, rfl, ?_⟩
  · unfold Aggregate
    rw [if_neg]
    simp [h1, h2]
  · unfold applyDefaults
    simp [h3]

/-- C3 amended, witnessed on the concrete configuration `p3`. -/
theorem c3_amended_witness :
    Aggregate decodeZero p3 default [] =
      .error "aggregation strategies other than SIMPLE and NONE are not implemented" ∧
    Validate { p3 with AggregationStrategy := "SIMPLE" } = Validate p3 ∧
    (applyDefaults p3).AggregationStrategy = p3.AggregationStrategy :=
  c3_amended decodeZero p3 default [] (by decide) (by decide) (by decide)

/-! ### C4: the grouping state machine's continuation condition -/

/-- The components of `getTag` agree with the spec's bare tag. -/
theorem getTag_snd (s : String) : (getTag s).2 = bareTag s := by
  unfold getTag bareTag
  by_cases h1 : goStartsWith s "B-" <;> by_cases h2 : goStartsWith s "I-" <;> simp [h1, h2]

/-- The first component of `getTag` is `"B"` exactly for `B-`-marked
labels. -/
theorem getTag_fst (s : String) : (getTag s).1 = "B" ↔ isBLabel s = true := by
  unfold getTag isBLabel
  by_cases h1 : goStartsWith s "B-" <;> by_cases h2 : goStartsWith s "I-" <;>
    simp [h1, h2]

/-- A token-level entity labelled `B-PER` with all remaining fields at their
zero values. -/
def entBPer : Entity := { (default : Entity) with Entity := "B-PER" }

/-- C4: with a non-empty open group, one step of `GroupEntities` appends the
incoming entity to the open group exactly when its bare tag equals the bare
tag of the group's last member and its label is not `B`-marked; and the label
sequence `["B-PER", "B-PER"]` produces two separate `PER` entities. -/
theorem c4_group_continuation (decode : List Nat → Bool → String)
    (gs cur : List Entity) (e : Entity) (h : cur ≠ []) :
    (groupStep decode (gs, cur) e = (gs, cur ++ [e]) ↔
      (bareTag e.Entity = bareTag (cur.getLastD default).Entity ∧
        isBLabel e.Entity = false)) ∧
    (GroupEntities decodeZero [entBPer, entBPer]).map (fun x => x.Entity) = ["PER", "PER"] := by
  constructor
  · have hcond : ((getTag e.Entity).2 = (getTag (cur.getLastD default).Entity).2 ∧
        (getTag e.Entity).1 ≠ "B") ↔
        (bareTag e.Entity = bareTag (cur.getLastD default).Entity ∧
          isBLabel e.Entity = false) := by
      rw [getTag_snd, getTag_snd]
      constructor
      · rintro ⟨ht, hb⟩
        refine ⟨ht, ?_⟩
        rcases Bool.eq_false_or_eq_true (isBLabel e.Entity) with ht' | hf
        · exact absurd ((getTag_fst e.Entity).mpr ht') hb
        · exact hf
      · rintro ⟨ht, hb⟩
        refine ⟨ht, fun hB => ?_⟩
        rw [(getTag_fst e.Entity).mp hB] at hb
        simp at hb
    unfold groupStep
    rw [if_neg h]
    by_cases hc : (getTag e.Entity).2 = (getTag (cur.getLastD default).Entity).2 ∧
        (getTag e.Entity).1 ≠ "B"
    · rw [if_pos hc]
      exact iff_of_true rfl (hcond.mp hc)
    · rw [if_neg hc]
      refine iff_of_false (fun heq => ?_) (fun hr => hc (hcond.mpr hr))
      have h3 := congrArg List.length (congrArg Prod.snd heq)
      simp at h3
      exact h h3
  · decide

/-- C4, witnessed: a second `B-PER` arriving at an open `B-PER` group is not
appended (its label is `B`-marked), and the two-entity example groups into
two `PER` entities. -/
theorem c4_group_continuation_witness :
    (groupStep decodeZero ([], [entBPer]) entBPer = ([], [entBPer] ++ [entBPer]) ↔
      (bareTag entBPer.Entity = bareTag ([entBPer].getLastD default).Entity ∧
        isBLabel entBPer.Entity = false)) ∧
    (GroupEntities decodeZero [entBPer, entBPer]).map (fun x => x.Entity) = ["PER", "PER"] :=
  c4_group_continuation decodeZero [] [entBPer] entBPer (by decide)

/-! ### C7: the merged entity produced on group closure -/

/-- A token-level entity whose label has a dash but no recognized `B-`/`I-`
marker: its bare tag (spec §4.4) is the whole label `E-PER`. -/
def entEPer : Entity :=
  { (default : Entity) with
    Entity := "E-PER", Score := 1, TokenId := 9, Start := 3, End := 7 }

/-- C7 counterexample: closing the single-member group `[E-PER]` during
SIMPLE-mode grouping produces a merged entity labelled `PER` (the code keeps
only the text after the first dash), while the group's bare tag is `E-PER`;
so the merged label is not the group's bare tag. -/
theorem c7_merge_counterexample :
    (GroupEntities decodeZero [entEPer]).map (fun x => x.Entity) = ["PER"] ∧
    bareTag entEPer.Entity = "E-PER" ∧
    ("PER" : String) ≠ "E-PER" := by
  decide

/-- C7 amended: the merged entity's label is the first member's label with
everything up to the first dash stripped (the label itself when it has no
dash) — which agrees with the bare tag for `B-`/`I-`-marked and dash-free
labels, but not for dashed labels with an unrecognized marker; score is the
arithmetic mean of the member scores, start/end are the first member's start
and the last member's end, and the word is produced by decoding the
concatenated member token ids through the Tokenizer Adapter. -/
theorem c7_merge_amended (decode : List Nat → Bool → String)
    (entities : List Entity) (h : entities ≠ []) :
    (groupSubEntities decode entities).Entity = dashTail (entities.headD default).Entity ∧
    (groupSubEntities decode entities).Score = Mean (entities.map fun s => s.Score) ∧
    (groupSubEntities decode entities).Word = decode (entities.map fun s => s.TokenId) false ∧
    (groupSubEntities decode entities).Start = (entities.headD default).Start ∧
    (groupSubEntities decode entities).End = (entities.getLastD default).End ∧
    dashTail "B-PER" = bareTag "B-PER" ∧
    dashTail "I-CREATIVE-WORK" = bareTag "I-CREATIVE-WORK" ∧
    dashTail "LOC" = bareTag "LOC" := by
  exact ⟨rfl, rfl, rfl, rfl, rfl, by decide, by decide, by decide⟩

/-- C7 amended, witnessed on the concrete one-member group `[E-PER]`. -/
theorem c7_merge_amended_witness :
    (groupSubEntities decodeZero [entEPer]).Entity = dashTail ([entEPer].headD default).Entity ∧
    (groupSubEntities decodeZero [entEPer]).Score = Mean ([entEPer].map fun s => s.Score) ∧
    (groupSubEntities decodeZero [entEPer]).Word = decodeZero ([entEPer].map fun s => s.TokenId) false ∧
    (groupSubEntities decodeZero [entEPer]).Start = ([entEPer].headD default).Start ∧
    (groupSubEntities decodeZero [entEPer]).End = ([entEPer].getLastD default).End ∧
    dashTail "B-PER" = bareTag "B-PER" ∧
    dashTail "I-CREATIVE-WORK" = bareTag "I-CREATIVE-WORK" ∧
    dashTail "LOC" = bareTag "LOC" :=
  c7_merge_amended decodeZero [entEPer] (by decide)

/-! ### C8: diagnostic fields carried by ungrouped entities -/

/-- A tokenization of `hello` into the word piece `he` and the sub-word
continuation `##llo` (token text length 5 against character span length 3,
so the sub-word heuristic fires). -/
def input8 : TokenizedInput :=
  { Raw := "hello", Tokens := ["he", "##llo"], TokenIds := [7, 8],
    TypeIds := [0, 0], AttentionMask := [1, 1], SpecialTokensMask := [0, 0],
    MaxAttentionIndex := 1, Offsets := [(0, 2), (2, 5)] }

/-- A pipeline running in ungrouped (`NONE`) mode with a single class. -/
def p8 : TokenClassificationPipeline :=
  { IdLabelMap := [(0, "X")], AggregationStrategy := "NONE",
    IgnoreLabels := ["O"], OutputDim := 1 }

/-- The entity `Aggregate` produces for the first token of `input8`. -/
def e80 : Entity :=
  { Entity := "X", Score := 1, Scores := [], Index := 0, Word := "he",
    TokenId := 7, Start := 0, End := 2, IsSubword := false }

/-- The entity `Aggregate` produces for the sub-word token of `input8`:
`IsSubword` is `false` even though the pre-entity's flag was `true`. -/
def e81 : Entity :=
  { Entity := "X", Score := 1, Scores := [], Index := 1, Word := "##llo",
    TokenId := 8, Start := 2, End := 5, IsSubword := false }

/-- C8 counterexample: the second token of `input8` is detected as a
sub-word continuation during pre-entity gathering (`IsSubword = true`), yet
the Entity record returned by ungrouped aggregation for that token has
`IsSubword = false`: the flag is not propagated into the result. -/
theorem c8_subword_counterexample :
    ((GatherPreEntities input8 [[1], [1]]).getD 1 default).IsSubword = true ∧
    Aggregate decodeZero p8 input8 (GatherPreEntities input8 [[1], [1]]) = .ok [e80, e81] ∧
    e81.IsSubword = false := by
  refine ⟨by decide, rfl, by decide⟩

/-- Elementwise description of the entity-construction loop of `Aggregate`:
`Index` and `TokenId` are copied from the originating pre-entity, while
`IsSubword` is left at its zero value. -/
theorem aggregateLoop_fields (p : TokenClassificationPipeline) (input : TokenizedInput) :
    ∀ (pres ents : List Entity), aggregateLoop p input pres = .ok ents →
      ents.length = pres.length ∧
      ∀ i, i < ents.length →
        (ents.getD i default).Index = (pres.getD i default).Index ∧
        (ents.getD i default).TokenId = (pres.getD i default).TokenId ∧
        (ents.getD i default).IsSubword = false := by
  intro pres
  induction pres with
  | nil =>
    intro ents hok
    simp only [aggregateLoop] at hok
    injection hok with h
    subst h
    exact ⟨rfl, fun i hi => absurd hi (by simp)⟩
  | cons preEntity rest ih =>
    intro ents hok
    cases hA : ArgMax preEntity.Scores with
    | error e =>
      simp only [aggregateLoop, hA] at hok
      exact Except.noConfusion hok
    | ok v =>
      obtain ⟨idx, score⟩ := v
      cases hL : List.lookup idx p.IdLabelMap with
      | none =>
        simp only [aggregateLoop, hA, hL] at hok
        exact Except.noConfusion hok
      | some label =>
        cases hR : aggregateLoop p input rest with
        | error e =>
          simp only [aggregateLoop, hA, hL, hR] at hok
          exact Except.noConfusion hok
        | ok es =>
          simp only [aggregateLoop, hA, hL, hR] at hok
          rcases ih es hR with ⟨hlen, hfields⟩
          injection hok with hok
          subst hok
          constructor
          · simp [hlen]
          · intro i hi
            cases i with
            | zero => exact ⟨rfl, rfl, rfl⟩
            | succ n =>
              simp only [List.getD_cons_succ]
              exact hfields n (by simpa using hi)

/-- C8 amended: in ungrouped (`NONE`) mode, every Entity in `Aggregate`'s
result carries `index` and `tokenId` from its originating token, but the
`isSubword` flag computed during pre-entity gathering is not propagated: it
is `false` in every returned Entity. -/
theorem c8_fields_amended (decode : List Nat → Bool → String)
    (p : TokenClassificationPipeline) (input : TokenizedInput)
    (pres ents : List Entity) (i : Nat)
    (hstrat : p.AggregationStrategy = "NONE")
    (hok : Aggregate decode p input pres = .ok ents)
    (hi : i < ents.length) :
    ents.length = pres.length ∧
    (ents.getD i default).Index = (pres.getD i default).Index ∧
    (ents.getD i default).TokenId = (pres.getD i default).TokenId ∧
    (ents.getD i default).IsSubword = false := by
  unfold Aggregate at hok
  rw [hstrat] at hok
  cases hR : aggregateLoop p input pres with
  | error e =>
    simp only [hR] at hok
    rw [if_pos (Or.inr (by trivial))] at hok
    exact Except.noConfusion hok
  | ok es =>
    simp only [hR] at hok
    rw [if_pos (Or.inr (by trivial)), if_pos (by trivial)] at hok
    rcases aggregateLoop_fields p input pres es hR with ⟨hlen, hfields⟩
    injection hok with hok
    subst hok
    exact ⟨hlen, hfields i hi⟩

/-- C8 amended, witnessed on `input8` at the sub-word token. -/
theorem c8_fields_amended_witness :
    [e80, e81].length = (GatherPreEntities input8 [[1], [1]]).length ∧
    ([e80, e81].getD 1 default).Index = ((GatherPreEntities input8 [[1], [1]]).getD 1 default).Index ∧
    ([e80, e81].getD 1 default).TokenId = ((GatherPreEntities input8 [[1], [1]]).getD 1 default).TokenId ∧
    ([e80, e81].getD 1 default).IsSubword = false :=
  c8_fields_amended decodeZero p8 input8 (GatherPreEntities input8 [[1], [1]])
    [e80, e81] 1 rfl rfl (by decide)

/-! ### C5: the batch's `maxSequence` -/

/-- If every entry of the mask is zero, the scan returns its accumulator. -/
theorem maxAttentionGo_all_zero (mask : List Nat) :
    ∀ (j acc : Nat), (∀ k, k < mask.length → mask.getD k 0 = 0) →
      maxAttentionGo j acc mask = acc := by
  induction mask with
  | nil => intro j acc _; rfl
  | cons v rest ih =>
    intro j acc hz
    have hv : v = 0 := by simpa using hz 0 (by simp)
    simp only [maxAttentionGo, hv]
    rw [if_neg (by simp)]
    exact ih (j + 1) acc fun k hk => by simpa using hz (k + 1) (by simpa using hk)

/-- The scan started at offset `off` lands on `off + i` when `i` is the last
non-zero position of the mask. -/
theorem maxAttentionGo_last (mask : List Nat) :
    ∀ (off acc i : Nat), i < mask.length → mask.getD i 0 ≠ 0 →
      (∀ k, k < mask.length → i < k → mask.getD k 0 = 0) →
      maxAttentionGo off acc mask = off + i := by
  induction mask with
  | nil => intro off acc i hi _ _; simp at hi
  | cons v rest ih =>
    intro off acc i hi hnz htail
    cases i with
    | zero =>
      have hv : v ≠ 0 := by simpa using hnz
      simp only [maxAttentionGo]
      rw [if_pos hv]
      have hz : maxAttentionGo (off + 1) off rest = off := by
        apply maxAttentionGo_all_zero
        intro k hk
        simpa using htail (k + 1) (by simpa using hk) (Nat.succ_pos k)
      rw [hz]
      omega
    | succ n =>
      have hn : n < rest.length := by simpa using hi
      have hnz' : rest.getD n 0 ≠ 0 := by simpa using hnz
      have htail' : ∀ k, k < rest.length → n < k → rest.getD k 0 = 0 := by
        intro k hk hnk
        simpa using htail (k + 1) (by simpa using hk) (by omega)
      simp only [maxAttentionGo]
      rw [ih (off + 1) (if v ≠ 0 then off else acc) n hn hnz' htail']
      omega

/-- `maxAttentionIndex` as computed by `Preprocess` is exactly the index of
the last non-zero attention-mask entry. -/
theorem maxAttentionIndexOf_eq (mask : List Nat) (j : Nat)
    (h : isLastNonzeroIndex mask j) : maxAttentionIndexOf mask = j := by
  rcases h with ⟨h1, h2, h3⟩
  have := maxAttentionGo_last mask 0 0 j h1 h2 h3
  simpa [maxAttentionIndexOf] using this

/-- The running-maximum update written with `if` is `max`. -/
theorem ite_max_eq (m x : Nat) : (if x > m then x else m) = max m x := by
  rcases Nat.lt_or_ge m x with h | h
  · rw [if_pos h, Nat.max_eq_right (Nat.le_of_lt h)]
  · rw [if_neg (Nat.not_lt.mpr h), Nat.max_eq_left h]

/-- The running-maximum fold computes the maximum. -/
theorem foldl_ite_max (l : List Nat) :
    ∀ a : Nat, l.foldl (fun m x => if x > m then x else m) a = max a (listMax l) := by
  induction l with
  | nil => intro a; simp [listMax]
  | cons x rest ih =>
    intro a
    have h1 : listMax (x :: rest) = max x (listMax rest) := by simp [listMax]
    rw [List.foldl_cons, ite_max_eq, ih (max a x), h1, Nat.max_assoc]

/-- The running-maximum fold only depends on the projected values. -/
theorem foldl_proj_congr (g g' : String → Nat) :
    ∀ (l : List String) (a : Nat), (∀ s ∈ l, g s = g' s) →
      l.foldl (fun m s => if g s > m then g s else m) a =
        l.foldl (fun m s => if g' s > m then g' s else m) a := by
  intro l
  induction l with
  | nil => intro a _; rfl
  | cons s rest ih =>
    intro a hg
    simp only [List.foldl_cons]
    rw [hg s (by simp)]
    exact ih (if g' s > a then g' s else a) fun t ht => hg t (by simp [ht])

/-- C5: the `MaxSequence` of a batch produced by `Preprocess` is one plus the
maximum, over the inputs, of the index of the last non-zero entry of each
input's attention mask (given by the index function `f`). -/
theorem c5_max_sequence (hTT hAM : Bool) (tok : String → EncodeOutput)
    (inputs : List String) (f : String → Nat)
    (h : ∀ s ∈ inputs, isLastNonzeroIndex (tok s).AttentionMask (f s)) :
    (Preprocess hTT hAM tok inputs).MaxSequence = 1 + listMax (inputs.map f) := by
  unfold Preprocess convertInputToTensors
  simp only [List.foldl_map]
  have hcongr := foldl_proj_congr
    (fun s => maxAttentionIndexOf (tok s).AttentionMask) f inputs 0
    (fun s hs => maxAttentionIndexOf_eq _ _ (h s hs))
  simp only at hcongr ⊢
  rw [hcongr, ← List.foldl_map f (fun m x => if x > m then x else m) inputs 0,
    foldl_ite_max, Nat.max_eq_right (Nat.zero_le _)]
  omega

instance (mask : List Nat) (j : Nat) : Decidable (isLastNonzeroIndex mask j) :=
  decidable_of_iff
    (j < mask.length ∧ mask.getD j 0 ≠ 0 ∧
      ∀ k, k < mask.length → j < k → mask.getD k 0 = 0) Iff.rfl

/-- A tokenizer output whose attention mask has its last non-zero entry at
index 1. -/
def encC5 : EncodeOutput :=
  { Tokens := [], IDs := [], TypeIDs := [], AttentionMask := [1, 1, 0],
    SpecialTokensMask := [], Offsets := [] }

/-- C5, witnessed on a one-input batch with mask `[1, 1, 0]`. -/
theorem c5_max_sequence_witness :
    (Preprocess false false (fun _ => encC5) ["a"]).MaxSequence =
      1 + listMax (["a"].map fun _ => 1) :=
  c5_max_sequence false false (fun _ => encC5) ["a"] (fun _ => 1) (by decide)

/-! ### C6: the padded rectangular tensor layout -/

/-- Length of a row concatenation with constant row length. -/
theorem flatMap_length_const (row : TokenizedInput → List Int) (m : Nat)
    (hrow : ∀ x, (row x).length = m) :
    ∀ l : List TokenizedInput, (l.flatMap row).length = l.length * m := by
  intro l
  induction l with
  | nil => simp
  | cons a rest ih =>
    simp only [List.flatMap_cons, List.length_append, hrow a, ih,
      List.length_cons, Nat.succ_mul]
    omega

/-- Entry `(i, j)` of a row concatenation with constant row length. -/
theorem flatMap_getD (row : TokenizedInput → List Int) (m : Nat)
    (hrow : ∀ x, (row x).length = m) :
    ∀ (l : List TokenizedInput) (i j : Nat), i < l.length → j < m →
      (l.flatMap row).getD (i * m + j) 0 = (row (l.getD i default)).getD j 0 := by
  intro l
  induction l with
  | nil => intro i j hi _; simp at hi
  | cons a rest ih =>
    intro i j hi hj
    cases i with
    | zero =>
      simp only [List.flatMap_cons, Nat.zero_mul, Nat.zero_add, List.getD_cons_zero]
      exact List.getD_append _ _ _ _ (by rw [hrow a]; exact hj)
    | succ n =>
      have hn : n < rest.length := by simpa using hi
      have hidx : (n + 1) * m + j = (row a).length + (n * m + j) := by
        rw [hrow a]; ring
      simp only [List.flatMap_cons, List.getD_cons_succ]
      rw [hidx, List.getD_append_right _ _ _ _ (Nat.le_add_right _ _),
        Nat.add_sub_cancel_left]
      exact ih n j hn hj

/-- Entry `j` of a row built with `List.range`. -/
theorem range_map_getD (m j : Nat) (f : Nat → Int) (hj : j < m) :
    ((List.range m).map f).getD j 0 = f j := by
  rw [List.getD_eq_getElem _ _ (by simpa using hj)]
  simp

/-- C6: each of the three flat tensors laid out by the preprocessor has
total length `batchSize * maxSequence` (one row of length `maxSequence` per
input), and entry `(i, j)` holds the tokenizer output value when `j` is below
input `i`'s true token count (type-ids and attention-mask values only when
the model declares those inputs) and `0` otherwise.  The length hypotheses
record the tokenizer contract under which the Go indexing is in range. -/
theorem c6_tensor_layout (hTT hAM : Bool) (inputs : List TokenizedInput)
    (maxSequence : Nat) (i j : Nat)
    (hi : i < inputs.length) (hj : j < maxSequence)
    (hT : (inputs.getD i default).TypeIds.length = (inputs.getD i default).TokenIds.length)
    (hA : (inputs.getD i default).AttentionMask.length = (inputs.getD i default).TokenIds.length) :
    ((convertInputToTensors hTT hAM inputs maxSequence).IdsTensor.length
        = inputs.length * maxSequence ∧
      (convertInputToTensors hTT hAM inputs maxSequence).TypeIdsTensor.length
        = inputs.length * maxSequence ∧
      (convertInputToTensors hTT hAM inputs maxSequence).AttentionMasksTensor.length
        = inputs.length * maxSequence) ∧
    (convertInputToTensors hTT hAM inputs maxSequence).IdsTensor.getD (i * maxSequence + j) 0
      = (if j < (inputs.getD i default).TokenIds.length
          then ((inputs.getD i default).TokenIds.getD j 0 : Int) else 0) ∧
    (convertInputToTensors hTT hAM inputs maxSequence).TypeIdsTensor.getD (i * maxSequence + j) 0
      = (if j < (inputs.getD i default).TokenIds.length ∧ hTT = true
          then ((inputs.getD i default).TypeIds.getD j 0 : Int) else 0) ∧
    (convertInputToTensors hTT hAM inputs maxSequence).AttentionMasksTensor.getD (i * maxSequence + j) 0
      = (if j < (inputs.getD i default).TokenIds.length ∧ hAM = true
          then ((inputs.getD i default).AttentionMask.getD j 0 : Int) else 0) := by
  unfold convertInputToTensors
  refine ⟨⟨?_, ?_, ?_⟩, ?_, ?_, ?_⟩
  · exact flatMap_length_const _ maxSequence (fun x => by simp [idsRow]) inputs
  · exact flatMap_length_const _ maxSequence (fun x => by simp [typeIdsRow]) inputs
  · exact flatMap_length_const _ maxSequence (fun x => by simp [attentionMaskRow]) inputs
  · rw [flatMap_getD _ maxSequence (fun x => by simp [idsRow]) inputs i j hi hj]
    unfold idsRow
    rw [range_map_getD _ _ _ hj]
    by_cases hjl : j < (inputs.getD i default).TokenIds.length
    · rw [if_pos (Nat.lt_iff_add_one_le.mp hjl), if_pos hjl]
    · rw [if_neg (fun hc => hjl (Nat.lt_iff_add_one_le.mpr hc)), if_neg hjl]
  · rw [flatMap_getD _ maxSequence (fun x => by simp [typeIdsRow]) inputs i j hi hj]
    unfold typeIdsRow
    rw [range_map_getD _ _ _ hj]
    by_cases hjl : j < (inputs.getD i default).TokenIds.length
    · rw [if_pos (Nat.lt_iff_add_one_le.mp hjl)]
      by_cases hb : hTT = true
      · rw [if_pos hb, if_pos ⟨hjl, hb⟩]
      · rw [if_neg hb, if_neg (fun hc => hb hc.2)]
    · rw [if_neg (fun hc => hjl (Nat.lt_iff_add_one_le.mpr hc)),
        if_neg (fun hc => hjl hc.1)]
  · rw [flatMap_getD _ maxSequence (fun x => by simp [attentionMaskRow]) inputs i j hi hj]
    unfold attentionMaskRow
    rw [range_map_getD _ _ _ hj]
    by_cases hjl : j < (inputs.getD i default).TokenIds.length
    · rw [if_pos (Nat.lt_iff_add_one_le.mp hjl)]
      by_cases hb : hAM = true
      · rw [if_pos hb, if_pos ⟨hjl, hb⟩]
      · rw [if_neg hb, if_neg (fun hc => hb hc.2)]
    · rw [if_neg (fun hc => hjl (Nat.lt_iff_add_one_le.mpr hc)),
        if_neg (fun hc => hjl hc.1)]

/-- A one-token input used to witness the layout theorem. -/
def inputC6 : TokenizedInput :=
  { Raw := "a", Tokens := ["a"], TokenIds := [5], TypeIds := [3],
    AttentionMask := [1], SpecialTokensMask := [0], MaxAttentionIndex := 0,
    Offsets := [(0, 1)] }

/-- C6, witnessed at the padding position `(0, 1)` of a one-input batch with
`maxSequence = 2`. -/
theorem c6_tensor_layout_witness :
    (((convertInputToTensors true true [inputC6] 2).IdsTensor.length = [inputC6].length * 2 ∧
      (convertInputToTensors true true [inputC6] 2).TypeIdsTensor.length = [inputC6].length * 2 ∧
      (convertInputToTensors true true [inputC6] 2).AttentionMasksTensor.length = [inputC6].length * 2) ∧
    (convertInputToTensors true true [inputC6] 2).IdsTensor.getD (0 * 2 + 1) 0
      = (if 1 < ([inputC6].getD 0 default).TokenIds.length
          then (([inputC6].getD 0 default).TokenIds.getD 1 0 : Int) else 0) ∧
    (convertInputToTensors true true [inputC6] 2).TypeIdsTensor.getD (0 * 2 + 1) 0
      = (if 1 < ([inputC6].getD 0 default).TokenIds.length ∧ true = true
          then (([inputC6].getD 0 default).TypeIds.getD 1 0 : Int) else 0) ∧
    (convertInputToTensors true true [inputC6] 2).AttentionMasksTensor.getD (0 * 2 + 1) 0
      = (if 1 < ([inputC6].getD 0 default).TokenIds.length ∧ true = true
          then (([inputC6].getD 0 default).AttentionMask.getD 1 0 : Int) else 0)) :=
  c6_tensor_layout true true [inputC6] 2 0 1 (by decide) (by decide) (by decide) (by decide)

/-! ### C9: the ignore-label filter -/

/-- Every entity list produced by the per-input stage of `Postprocess` went
through the filter, so it contains no empty and no ignored labels. -/
theorem postLoop_filter (decode : List Nat → Bool → String) (p : TokenClassificationPipeline) :
    ∀ (pairs : List (TokenizedInput × List (List Rat))) (lists : List (List Entity)),
      postLoop decode p pairs = .ok lists →
      ∀ lst ∈ lists, ∀ e ∈ lst, e.Entity ≠ "" ∧ e.Entity ∉ p.IgnoreLabels := by
  intro pairs
  induction pairs with
  | nil =>
    intro lists hok lst hlst e _
    simp only [postLoop] at hok
    injection hok with h
    subst h
    simp at hlst
  | cons pr rest ih =>
    intro lists hok lst hlst e he
    obtain ⟨input, output⟩ := pr
    cases hA : Aggregate decode p input (GatherPreEntities input output) with
    | error m =>
      simp only [postLoop, hA] at hok
      exact Except.noConfusion hok
    | ok entities =>
      cases hR : postLoop decode p rest with
      | error m =>
        simp only [postLoop, hA, hR] at hok
        exact Except.noConfusion hok
      | ok restLists =>
        simp only [postLoop, hA, hR] at hok
        injection hok with h
        subst h
        rcases List.mem_cons.mp hlst with h1 | h2
        · subst h1
          have hmem := List.mem_filter.mp he
          have hp := hmem.2
          rw [Bool.and_eq_true] at hp
          refine ⟨by simpa using hp.2, ?_⟩
          have h1c := hp.1
          rw [Bool.not_eq_true'] at h1c
          simpa using h1c
        · exact ih restLists hR lst h2 e he

/-- C9: no Entity whose label is empty or belongs to the configured
ignore-label set ever appears in a successful `Postprocess` result. -/
theorem c9_filter (softMax : List Rat → List Rat) (decode : List Nat → Bool → String)
    (p : TokenClassificationPipeline) (batch : PipelineBatch)
    (out : List (List Entity)) (lst : List Entity) (e : Entity)
    (hok : Postprocess softMax decode p batch = .ok out)
    (hlst : lst ∈ out) (he : e ∈ lst) :
    e.Entity ≠ "" ∧ e.Entity ∉ p.IgnoreLabels := by
  unfold Postprocess at hok
  by_cases hneg : p.OutputDim < 0
  · rw [if_pos hneg] at hok
    exact PPResult.noConfusion hok
  · rw [if_neg hneg] at hok
    split at hok
    · exact PPResult.noConfusion hok
    · dsimp only at hok
      split at hok
      · exact PPResult.noConfusion hok
      · split at hok
        · exact PPResult.noConfusion hok
        · next lists heqP =>
          injection hok with h
          subst h
          exact postLoop_filter decode p _ _ heqP lst hlst e he

/-- A one-token tokenization of `hi`. -/
def input9 : TokenizedInput :=
  { Raw := "hi", Tokens := ["hi"], TokenIds := [5], TypeIds := [0],
    AttentionMask := [1], SpecialTokensMask := [0], MaxAttentionIndex := 0,
    Offsets := [(0, 2)] }

/-- An ungrouped-mode pipeline with the default ignore set `["O"]`. -/
def p9 : TokenClassificationPipeline :=
  { IdLabelMap := [(0, "O"), (1, "B-PER")], AggregationStrategy := "NONE",
    IgnoreLabels := ["O"], OutputDim := 2 }

/-- A one-input batch whose output tensor scores class 1 highest. -/
def batch9 : PipelineBatch :=
  { Input := [input9], IdsTensor := [5], TypeIdsTensor := [0],
    AttentionMasksTensor := [1], MaxSequence := 1, OutputTensor := [1, 3] }

/-- The entity surviving the filter in the `batch9` run. -/
def e9 : Entity :=
  { Entity := "B-PER", Score := 3, Scores := [], Index := 0, Word := "hi",
    TokenId := 5, Start := 0, End := 2, IsSubword := false }

/-- C9, witnessed on a complete `Postprocess` run over `batch9`. -/
theorem c9_filter_witness : e9.Entity ≠ "" ∧ e9.Entity ∉ p9.IgnoreLabels :=
  c9_filter softMaxId decodeZero p9 batch9 [[e9]] [e9] e9 (by decide) (by decide) (by decide)

/-! ### C10: `Postprocess` on an empty batch -/

/-- C10: for any batch whose input list is empty (and any configuration with
a non-negative output dimension, so that the earlier `make` cannot panic
first), `Postprocess` hits the unconditional `batch.Input[0]` read and
panics with an index-out-of-range error instead of returning a result or an
error value. -/
theorem c10_postprocess_empty_batch (softMax : List Rat → List Rat)
    (decode : List Nat → Bool → String) (p : TokenClassificationPipeline)
    (batch : PipelineBatch) (h0 : 0 ≤ p.OutputDim) (h1 : batch.Input = []) :
    Postprocess softMax decode p batch =
      .panicked "runtime error: index out of range [0] with length 0" := by
  unfold Postprocess
  rw [if_neg (by omega), h1]

/-- An empty batch. -/
def batchEmpty : PipelineBatch :=
  { Input := [], IdsTensor := [], TypeIdsTensor := [],
    AttentionMasksTensor := [], MaxSequence := 1, OutputTensor := [] }

/-- C10, witnessed on the empty batch with the `p9` configuration. -/
theorem c10_postprocess_empty_batch_witness :
    Postprocess softMaxId decodeZero p9 batchEmpty =
      .panicked "runtime error: index out of range [0] with length 0" :=
  c10_postprocess_empty_batch softMaxId decodeZero p9 batchEmpty (by decide) rfl

end Hugot
